import Mathlib

set_option maxRecDepth 100000

/-!
Shallow embedding of the request-dispatch pipeline of a small Rust HTTP
server (`src/security.rs`, `src/website_handler.rs`, `src/http/response.rs`,
`src/http/status_code.rs`).  Pure Rust functions become Lean functions;
the rate limiter's shared ledger becomes explicit state passing; the
filesystem is an abstract record of (partial) functions; machine integers
become `Nat` with explicit wrap-around where the source can overflow.
-/

/-! ## String helpers mirroring the Rust `str` operations used by the code -/

/-- Mirrors Rust `<[_]>::starts_with` on the character level:
`pat.isPrefixOf s`, i.e. `s` begins with `pat`. -/
def listIsPrefix (pat s : List Char) : Bool :=
  pat.isPrefixOf s

/-- Mirrors Rust `str::contains` with a `&str` pattern: some suffix of `s`
begins with `pat`. -/
def listInfixOf (pat : List Char) : List Char → Bool
  | [] => pat.isEmpty
  | c :: rest => pat.isPrefixOf (c :: rest) || listInfixOf pat rest

/-- Rust `path.contains(pattern)` for string patterns. -/
def strContains (s pat : String) : Bool :=
  listInfixOf pat.data s.data

/-- Rust `path.starts_with(pattern)` for string patterns. -/
def strStartsWith (s pat : String) : Bool :=
  listIsPrefix pat.data s.data

/-- The NUL character `'\0'` tested by `validate_path`. -/
def nullChar : Char := Char.ofNat 0

/-- Rust `char::to_lowercase` restricted to its ASCII action (the only case
exercised by the allow-listed extensions, which are all ASCII). -/
def lowerStr (s : String) : String :=
  String.mk (s.data.map Char.toLower)

/-- Rust `str::split(sep)` for a `char` separator: the list of segments
between occurrences of `sep`; always non-empty. -/
def splitOnChar (sep : Char) : List Char → List (List Char)
  | [] => [[]]
  | c :: cs =>
    let r := splitOnChar sep cs
    if c = sep then [] :: r
    else
      match r with
      | [] => [[c]]
      | g :: gs => (c :: g) :: gs

/-- The stripping loop of `str::trim_start_matches`, structurally recursive
on a fuel argument: each successful strip removes at least one character, so
any fuel of at least `s.length` yields the fixpoint. -/
def trimStartAux : Nat → List Char → List Char → List Char
  | 0, _, s => s
  | fuel + 1, pat, s =>
    if pat ≠ [] ∧ pat.isPrefixOf s = true then
      trimStartAux fuel pat (s.drop pat.length)
    else s

/-- Rust `str::trim_start_matches` with a `&str` pattern: repeatedly strips
the pattern from the front while it is a prefix. -/
def trimStartList (pat : List Char) (s : List Char) : List Char :=
  trimStartAux s.length pat s

/-- Rust `path.trim_start_matches(pat)` on strings. -/
def trimStartMatches (s pat : String) : String :=
  String.mk (trimStartList pat.data s.data)

/-- Rust `path.trim_start_matches('/')`: drops every leading slash. -/
def trimLeadingSlashes (s : String) : String :=
  String.mk (s.data.dropWhile (fun c => c = '/'))

/-! ## `src/http/status_code.rs` -/

/-- Modelled from the spec: the `TooManyRequests` (429) variant — used by
`Response::rate_limited` in `src/http/response.rs` and promised by the spec's
"the 101st call returns 429" — and the `Forbidden` (403) variant — matched by
`WebsiteHandler::create_safe_error_response` — are absent from the provided
`src/http/status_code.rs`; every other variant is taken verbatim from that
file. -/
inductive StatusCode where
  | Ok
  | BadRequest
  | Forbidden
  | NotFound
  | MethodNotAllowed
  | RequestTimeout
  | TooManyRequests
  | PayloadTooLarge
  | InternalServerError
deriving DecidableEq, Repr

/-- The numeric discriminants of the `StatusCode` enum (`Ok = 200`, ...). -/
def StatusCode.code : StatusCode → Nat
  | .Ok => 200
  | .BadRequest => 400
  | .Forbidden => 403
  | .NotFound => 404
  | .MethodNotAllowed => 405
  | .RequestTimeout => 408
  | .TooManyRequests => 429
  | .PayloadTooLarge => 413
  | .InternalServerError => 500

/-- `StatusCode::reason_phrase`. -/
def StatusCode.reason_phrase : StatusCode → String
  | .Ok => "OK"
  | .BadRequest => "Bad Request"
  | .Forbidden => "Forbidden"
  | .NotFound => "Not Found"
  | .MethodNotAllowed => "Method Not Allowed"
  | .RequestTimeout => "Request Timeout"
  | .TooManyRequests => "Too Many Requests"
  | .PayloadTooLarge => "Payload Too Large"
  | .InternalServerError => "Internal Server Error"

/-! ## `src/http/response.rs` -/

/-- The `Response` struct: status code, optional body, content type. -/
structure Response where
  status_code : StatusCode
  body : Option String
  content_type : String
deriving DecidableEq, Repr

/-- `Response::new`: plain-text content type. -/
def Response.new (status_code : StatusCode) (body : Option String) : Response :=
  { status_code := status_code
    body := body
    content_type := "text/plain; charset=utf-8" }

/-- `Response::html`. -/
def Response.html (status_code : StatusCode) (body : Option String) : Response :=
  { status_code := status_code
    body := body
    content_type := "text/html; charset=utf-8" }

/-- `Response::with_content_type`. -/
def Response.with_content_type (status_code : StatusCode) (body : Option String)
    (content_type : String) : Response :=
  { status_code := status_code
    body := body
    content_type := content_type }

/-- `Response::security_error`. -/
def Response.security_error (message : String) : Response :=
  Response.new StatusCode.BadRequest (some ("Security violation: " ++ message))

/-- `Response::rate_limited`. -/
def Response.rate_limited : Response :=
  Response.new StatusCode.TooManyRequests
    (some "Rate limit exceeded. Please try again later.")

/-! ## `src/security.rs` -/

/-- `SecurityConfig`. Durations are measured in whole seconds. -/
structure SecurityConfig where
  rate_limit_requests : Nat
  rate_limit_window : Nat
  allowed_file_extensions : List String
  allowed_hosts : List String
  max_path_length : Nat
deriving DecidableEq, Repr

/-- `SecurityConfig::default`: 100 requests per 60-second window, the
thirteen allow-listed extensions, two allowed hosts, 255-byte path cap. -/
def SecurityConfig.default : SecurityConfig :=
  { rate_limit_requests := 100
    rate_limit_window := 60
    allowed_file_extensions :=
      ["html", "css", "js", "json", "txt", "xml",
       "png", "jpg", "jpeg", "gif", "svg", "ico", "webp"]
    allowed_hosts := ["127.0.0.1:8080", "localhost:8080"]
    max_path_length := 255 }

/-- The rate limiter's ledger: the `HashMap<IpAddr, Vec<Instant>>` behind the
`RwLock`, modelled as an association list with distinct keys, plus the lock's
poison flag (`true` when a prior panic poisoned the `RwLock`).  Timestamps
are `Instant`s measured in whole seconds. -/
structure RateState where
  poisoned : Bool
  ledger : List (String × List Nat)
deriving DecidableEq, Repr

/-- `RateLimiter::new` starts from an empty, unpoisoned ledger. -/
def initRateState : RateState :=
  { poisoned := false, ledger := [] }

/-- `HashMap::get`-style lookup in the association-list model. -/
def ledgerFind? (m : List (String × List Nat)) (ip : String) : Option (List Nat) :=
  match m with
  | [] => none
  | e :: rest => if e.1 = ip then some e.2 else ledgerFind? rest ip

/-- Store a key's value, replacing an existing binding (the association-list
image of writing through `HashMap::entry`). -/
def ledgerInsert (m : List (String × List Nat)) (ip : String) (v : List Nat) :
    List (String × List Nat) :=
  match m with
  | [] => [(ip, v)]
  | e :: rest => if e.1 = ip then (ip, v) :: rest else e :: ledgerInsert rest ip v

/-- `times.retain(|&time| now.duration_since(time) < window)`: keep the
timestamps still inside the sliding window ending at `now`. -/
def pruneTimes (cfg : SecurityConfig) (now : Nat) (times : List Nat) : List Nat :=
  times.filter (fun t => now - t < cfg.rate_limit_window)

/-- `RateLimiter::is_allowed`, with the clock (`Instant::now()`) passed in as
`now` and the mutation of the locked ledger made explicit in the returned
state.  A poisoned lock fails closed.  When the ledger holds more than 1000
identities it is swept in bulk; then the caller's own timestamp list is
pruned, and the request is accepted (appending `now`) exactly when the pruned
count is below the configured maximum. -/
def is_allowed (cfg : SecurityConfig) (st : RateState) (ip : String) (now : Nat) :
    Bool × RateState :=
  if st.poisoned then (false, st)
  else
    let requests :=
      if st.ledger.length > 1000 then
        (st.ledger.map (fun e => (e.1, pruneTimes cfg now e.2))).filter
          (fun e => !e.2.isEmpty)
      else st.ledger
    let ip_requests := pruneTimes cfg now ((ledgerFind? requests ip).getD [])
    if ip_requests.length < cfg.rate_limit_requests then
      (true, { st with ledger := ledgerInsert requests ip (ip_requests ++ [now]) })
    else
      (false, { st with ledger := ledgerInsert requests ip ip_requests })

/-- The path fragments denylisted by `SecurityValidator::validate_path`. -/
def dangerous_patterns : List String :=
  ["/etc/", "/proc/", "/sys/", "/dev/", "/.env", "/.git"]

/-- `SecurityValidator::validate_path`: byte-length cap, then `..`/NUL
rejection, then the denylist of sensitive fragments. -/
def validate_path (cfg : SecurityConfig) (path : String) : Except String Unit :=
  if path.utf8ByteSize > cfg.max_path_length then
    Except.error "Path too long"
  else if strContains path ".." || path.data.contains nullChar then
    Except.error "Invalid path characters"
  else if dangerous_patterns.any (fun pattern => strContains path pattern) then
    Except.error "Forbidden path"
  else
    Except.ok ()

/-- `SecurityValidator::validate_file_extension`:
`file_path.split('.').last().map(|ext| allowed.contains(lowercase ext)).unwrap_or(false)`. -/
def validate_file_extension (cfg : SecurityConfig) (file_path : String) : Bool :=
  (((splitOnChar '.' file_path.data).getLast?).map
    (fun ext => cfg.allowed_file_extensions.contains (lowerStr (String.mk ext)))).getD false

/-- `SecurityValidator::validate_host`: absent host headers pass; present
ones must exactly match an allow-listed value. -/
def validate_host (cfg : SecurityConfig) (host : Option String) : Bool :=
  match host with
  | some host_header => cfg.allowed_hosts.any (fun allowed => host_header = allowed)
  | none => true

/-- The substrings denylisted by `SecurityValidator::sanitize_user_agent`. -/
def blocked_patterns : List String :=
  ["<script", "javascript:", "data:", "vbscript:", "onload="]

/-- `SecurityValidator::sanitize_user_agent`. -/
def sanitize_user_agent (user_agent : String) : Bool :=
  !(blocked_patterns.any (fun pattern => strContains (lowerStr user_agent) pattern))

/-! ## The `http` request types (absent from the provided sources) -/

/-- Modelled from the spec: the `Method` enum of the repository's `http`
module (its `method.rs` is not among the provided files).  The spec's
dispatcher distinguishes `GET`, `HEAD`, `OPTIONS`, the router additionally
matches `POST`, and "all other methods" fall through; the remaining HTTP/1.1
methods are included for that fall-through. -/
inductive Method where
  | GET
  | POST
  | PUT
  | DELETE
  | HEAD
  | OPTIONS
  | PATCH
  | TRACE
  | CONNECT
deriving DecidableEq, Repr

/-- Modelled from the spec: `Request::method_str`, the textual method name
used in the echo endpoint's body and in logging. -/
def Method.method_str : Method → String
  | .GET => "GET"
  | .POST => "POST"
  | .PUT => "PUT"
  | .DELETE => "DELETE"
  | .HEAD => "HEAD"
  | .OPTIONS => "OPTIONS"
  | .PATCH => "PATCH"
  | .TRACE => "TRACE"
  | .CONNECT => "CONNECT"

/-- Modelled from the spec: the `Request` produced by the external parser
(the repository's `http/request.rs` is not among the provided files):
"method, path, optional host header, optional user-agent, optional query
parameters", all immutable.  Query parameters are modelled as key/value
pairs; `queryGet` mirrors `QueryString::get`. -/
structure Request where
  method : Method
  path : String
  host : Option String
  user_agent : Option String
  query_string : Option (List (String × String))
deriving DecidableEq, Repr

/-- Modelled from the spec: `QueryString::get`, the lookup used by the
`/api/search` endpoint. -/
def queryGet (qs : List (String × String)) (key : String) : Option String :=
  match qs with
  | [] => none
  | e :: rest => if e.1 = key then some e.2 else queryGet rest key

/-- The remote socket address handed to the handler; only its IP portion is
ever read (`client_ip.ip()`). -/
structure SocketAddr where
  ip : String
deriving DecidableEq, Repr

/-- Modelled from the spec: the ambient process facts the router interpolates
into bodies — the crate version (`env!("CARGO_PKG_VERSION")`, the manifest is
not among the provided files) and the wall clock (`SystemTime::now`), in
whole seconds and milliseconds since the Unix epoch. -/
structure ServerEnv where
  version : String
  unix_secs : Nat
  unix_millis : Nat
deriving DecidableEq, Repr

/-- Rust `str::parse::<u32>()`: optional leading `+`, then decimal digits
only, rejecting the empty digit string and values beyond `u32::MAX`. -/
def parseU32 (s : String) : Option Nat :=
  let cs := s.data
  let ds := if cs.head? = some '+' then cs.tail else cs
  if ds.isEmpty then none
  else if ds.all (fun c => c.isDigit) then
    let v := ds.foldl (fun a c => a * 10 + (c.toNat - 48)) 0
    if v ≤ 4294967295 then some v else none
  else none

/-- `u64` wrap-around modulus for the `AtomicU64` request counter. -/
def u64Mod : Nat := 18446744073709551616

/-! ## `src/website_handler.rs`: the API router -/

/-- The 200 response of `GET /api/users/<id>` for an id in the known range:
hardcoded name and email selected by the id. -/
def userFoundResponse (user_id : Nat) : Response :=
  let name := if user_id = 1 then "Alice" else if user_id = 2 then "Bob" else "Charlie"
  let email := if user_id = 1 then "alice@example.com"
    else if user_id = 2 then "bob@example.com" else "charlie@example.com"
  Response.with_content_type StatusCode.Ok
    (some ("\x7b\"success\": true, \"data\": \x7b\"id\": " ++ toString user_id
      ++ ", \"name\": \"" ++ name ++ "\", \"email\": \"" ++ email
      ++ "\"\x7d, \"message\": \"User found\"\x7d"))
    "application/json; charset=utf-8"

/-- The 404 response of `GET /api/users/<id>` for an in-bounds parse whose
id is outside the known range. -/
def userNotFoundResponse : Response :=
  Response.with_content_type StatusCode.NotFound
    (some "\x7b\"success\": false, \"data\": null, \"message\": \"User not found\"\x7d")
    "application/json; charset=utf-8"

/-- The 400 response of `GET /api/users/<id>` when the id fails to parse. -/
def invalidUserIdResponse : Response :=
  Response.with_content_type StatusCode.BadRequest
    (some "\x7b\"success\": false, \"data\": null, \"message\": \"Invalid user ID\"\x7d")
    "application/json; charset=utf-8"

/-- The JSON "not found" envelope produced by the API catch-all arm. -/
def apiNotFoundResponse : Response :=
  Response.with_content_type StatusCode.NotFound
    (some "\x7b\"success\": false, \"data\": null, \"message\": \"API endpoint not found\"\x7d")
    "application/json; charset=utf-8"

/-- `WebsiteHandler::handle_api_route`.  The `AtomicU64` request counter is
threaded explicitly: it is incremented (with `u64` wrap-around) before the
route match, exactly as the `fetch_add` precedes the `match` in the source,
and the new value is returned alongside the optional response.  Returns
`none` for paths the router does not claim, signalling fall-through to
static file serving. -/
def handle_api_route (env : ServerEnv) (req : Request) (client_ip : SocketAddr)
    (request_count : Nat) : Option Response × Nat :=
  let count := (request_count + 1) % u64Mod
  let path := req.path
  let response :=
    if req.method = Method.GET ∧ path = "/api/ping" then
      some (Response.with_content_type StatusCode.Ok
        (some "\x7b\"status\": \"ok\", \"message\": \"pong\"\x7d")
        "application/json; charset=utf-8")
    else if req.method = Method.GET ∧ path = "/api/info" then
      some (Response.with_content_type StatusCode.Ok
        (some ("\x7b\"server\": \"Rust HTTP Server\", \"version\": \"" ++ env.version
          ++ "\", \"requests_served\": " ++ toString count
          ++ ", \"timestamp\": " ++ toString env.unix_secs ++ "\x7d"))
        "application/json; charset=utf-8")
    else if req.method = Method.GET ∧ path = "/api/users" then
      some (Response.with_content_type StatusCode.Ok
        (some ("\x7b\"success\": true, \"data\": [\n                    \x7b\"id\": 1, \"name\": \"Alice\", \"email\": \"alice@example.com\"\x7d,\n                    \x7b\"id\": 2, \"name\": \"Bob\", \"email\": \"bob@example.com\"\x7d,\n                    \x7b\"id\": 3, \"name\": \"Charlie\", \"email\": \"charlie@example.com\"\x7d\n                ], \"message\": \"Users retrieved successfully\"\x7d"))
        "application/json; charset=utf-8")
    else if req.method = Method.GET ∧ strStartsWith path "/api/users/" = true then
      let user_id_str := trimStartMatches path "/api/users/"
      match parseU32 user_id_str with
      | some user_id =>
        if 1 ≤ user_id ∧ user_id ≤ 3 then
          some (userFoundResponse user_id)
        else
          some userNotFoundResponse
      | none =>
        some invalidUserIdResponse
    else if req.method = Method.POST ∧ path = "/api/echo" then
      some (Response.with_content_type StatusCode.Ok
        (some ("\x7b\"success\": true, \"data\": \x7b\"method\": \"" ++ req.method.method_str
          ++ "\", \"path\": \"" ++ req.path ++ "\", \"client_ip\": \"" ++ client_ip.ip
          ++ "\", \"timestamp\": " ++ toString env.unix_secs
          ++ "\x7d, \"message\": \"Echo successful\"\x7d"))
        "application/json; charset=utf-8")
    else if req.method = Method.GET ∧ path = "/api/search" then
      let query_result :=
        match req.query_string with
        | some qs =>
          match queryGet qs "q" with
          | some query =>
            "\x7b\"query\": \"" ++ query ++ "\", \"results\": [\"result1\", \"result2\", \"result3\"]\x7d"
          | none => "\x7b\"error\": \"Missing \x27q\x27 parameter\"\x7d"
        | none => "\x7b\"error\": \"No query parameters provided\"\x7d"
      some (Response.with_content_type StatusCode.Ok
        (some ("\x7b\"success\": true, \"data\": " ++ query_result
          ++ ", \"message\": \"Search completed\"\x7d"))
        "application/json; charset=utf-8")
    else if req.method = Method.GET ∧ path = "/api/time" then
      some (Response.with_content_type StatusCode.Ok
        (some ("\x7b\"success\": true, \"data\": \x7b\"unix_timestamp\": " ++ toString env.unix_secs
          ++ ", \"milliseconds\": " ++ toString env.unix_millis
          ++ "\x7d, \"message\": \"Current server time\"\x7d"))
        "application/json; charset=utf-8")
    else if strStartsWith path "/api/" = true then
      some apiNotFoundResponse
    else
      none
  (response, count)

/-! ## `src/website_handler.rs`: static file resolution and dispatch -/

/-- The filesystem as seen by the resolver: `fs::canonicalize` (failing on
absent paths or I/O errors), `Path::is_file`, and `fs::read_to_string`
(failing on unreadable or non-UTF-8 files). -/
structure FileSystem where
  canonicalize : String → Option String
  is_file : String → Bool
  read_to_string : String → Option String

/-- `PathBuf::join` for a relative right operand. -/
def pathJoin (root rel : String) : String :=
  root ++ "/" ++ rel

/-- The non-empty `/`-separated components of a path, for the component-wise
`Path::starts_with` containment test. -/
def pathComponents (p : String) : List String :=
  ((splitOnChar '/' p.data).filter (fun seg => seg ≠ [])).map String.mk

/-- `Path::starts_with`: component-wise prefix test. -/
def pathStartsWith (child base : String) : Bool :=
  (pathComponents base).isPrefixOf (pathComponents child)

/-- `WebsiteHandler::get_content_type`: extension-to-MIME lookup on the
segment after the last `.` (case-sensitive, as in the source). -/
def get_content_type (file_path : String) : String :=
  match (splitOnChar '.' file_path.data).getLast? with
  | some e =>
    let ext := String.mk e
    if ext = "html" then "text/html; charset=utf-8"
    else if ext = "css" then "text/css; charset=utf-8"
    else if ext = "js" then "application/javascript; charset=utf-8"
    else if ext = "json" then "application/json; charset=utf-8"
    else if ext = "xml" then "application/xml; charset=utf-8"
    else if ext = "txt" then "text/plain; charset=utf-8"
    else if ext = "png" then "image/png"
    else if ext = "jpg" ∨ ext = "jpeg" then "image/jpeg"
    else if ext = "gif" then "image/gif"
    else if ext = "svg" then "image/svg+xml"
    else if ext = "ico" then "image/x-icon"
    else if ext = "webp" then "image/webp"
    else if ext = "pdf" then "application/pdf"
    else "application/octet-stream"
  | none => "application/octet-stream"

/-- The immutable half of `WebsiteHandler`: the canonical sandbox root, the
security configuration shared by validator and rate limiter, the filesystem,
and the ambient process facts. -/
structure WebsiteHandler where
  public_path : String
  config : SecurityConfig
  fs : FileSystem
  env : ServerEnv

/-- `WebsiteHandler::read_file`: path validation, extension allow-list,
join-and-canonicalize, sandbox containment, regular-file check, then the
read; every failure collapses to `none`. -/
def read_file (h : WebsiteHandler) (file_path : String) : Option (String × String) :=
  match validate_path h.config file_path with
  | Except.error _ => none
  | Except.ok _ =>
    if !(validate_file_extension h.config file_path) then none
    else
      let requested_path := pathJoin h.public_path (trimLeadingSlashes file_path)
      match h.fs.canonicalize requested_path with
      | none => none
      | some canonical_path =>
        if !(pathStartsWith canonical_path h.public_path) then none
        else if h.fs.is_file canonical_path then
          match h.fs.read_to_string canonical_path with
          | some content => some (content, get_content_type file_path)
          | none => none
        else none

/-- `WebsiteHandler::create_safe_error_response`. -/
def create_safe_error_response (status : StatusCode) (message : String) : Response :=
  let safe_message :=
    match status with
    | StatusCode.NotFound => "The requested resource was not found."
    | StatusCode.Forbidden => "Access to this resource is forbidden."
    | StatusCode.BadRequest => "The request was invalid."
    | _ => message
  Response.new status (some safe_message)

/-- `Handler::handle_security_violation` (from `src/server.rs`): logs the
reason server-side and returns the fixed security-error response. -/
def handle_security_violation (_reason : String) (_client_ip : SocketAddr) : Response :=
  Response.security_error "Request blocked for security reasons"

/-- The mutable state threaded through one `handle_request` call: the rate
limiter's locked ledger and the `AtomicU64` request counter. -/
structure HandlerState where
  rate : RateState
  request_count : Nat
deriving DecidableEq, Repr

/-- The handler's initial state: empty ledger, counter at zero. -/
def initHandlerState : HandlerState :=
  { rate := initRateState, request_count := 0 }

/-- `WebsiteHandler::handle_request` (the `Handler` impl): rate-limit check,
then path validation, then (after logging) API routing, then static-file
routing by method with a method-not-allowed fall-through; the clock is the
explicit `now`. -/
def handle_request (h : WebsiteHandler) (st : HandlerState) (req : Request)
    (client_ip : SocketAddr) (now : Nat) : Response × HandlerState :=
  let rl := is_allowed h.config st.rate client_ip.ip now
  let st1 := { st with rate := rl.2 }
  if !rl.1 then
    (Response.rate_limited, st1)
  else
    match validate_path h.config req.path with
    | Except.error reason => (handle_security_violation reason client_ip, st1)
    | Except.ok _ =>
      let api := handle_api_route h.env req client_ip st1.request_count
      let st2 := { st1 with request_count := api.2 }
      match api.1 with
      | some api_response => (api_response, st2)
      | none =>
        match req.method with
        | Method.GET =>
          match req.path with
          | "/" =>
            (match read_file h "index.html" with
             | some (content, content_type) =>
               Response.with_content_type StatusCode.Ok (some content) content_type
             | none =>
               match read_file h "hello.html" with
               | some (content, content_type) =>
                 Response.with_content_type StatusCode.Ok (some content) content_type
               | none => create_safe_error_response StatusCode.NotFound "Index page not found",
             st2)
          | "/hello" =>
            (match read_file h "hello.html" with
             | some (content, content_type) =>
               Response.with_content_type StatusCode.Ok (some content) content_type
             | none => create_safe_error_response StatusCode.NotFound "Page not found",
             st2)
          | path =>
            (match read_file h path with
             | some (content, content_type) =>
               Response.with_content_type StatusCode.Ok (some content) content_type
             | none => create_safe_error_response StatusCode.NotFound "File not found",
             st2)
        | Method.HEAD =>
          match req.path with
          | "/" =>
            (if (read_file h "index.html").isSome || (read_file h "hello.html").isSome then
               Response.html StatusCode.Ok none
             else
               Response.new StatusCode.NotFound none,
             st2)
          | "/hello" =>
            (if (read_file h "hello.html").isSome then
               Response.html StatusCode.Ok none
             else
               Response.new StatusCode.NotFound none,
             st2)
          | path =>
            (if (read_file h path).isSome then
               Response.new StatusCode.Ok none
             else
               Response.new StatusCode.NotFound none,
             st2)
        | Method.OPTIONS => (Response.new StatusCode.Ok none, st2)
        | _ =>
          (Response.new StatusCode.MethodNotAllowed (some "Method not allowed"), st2)

/-! ## Derived fixtures and spec-side descriptions -/

/-- The suffix of `s` after its last occurrence of `sep` (the whole of `s`
when `sep` does not occur): the spec's "suffix after the last `.`". -/
def suffixAfterLast (sep : Char) (s : List Char) : List Char :=
  (s.reverse.takeWhile (fun c => c != sep)).reverse

/-- The spec's description of the extension check, read literally: accept
exactly when the lowercased suffix after the last `.` is in the allow-set,
and reject every path containing no `.` at all. -/
def extension_accepts_claimed (cfg : SecurityConfig) (file_path : String) : Bool :=
  if file_path.data.contains '.' then
    cfg.allowed_file_extensions.contains (lowerStr (String.mk (suffixAfterLast '.' file_path.data)))
  else false

/-- The route-table conditions of `handle_api_route` other than the
`/api/` catch-all: a request matching none of these (and no others) reaches
the catch-all. -/
def matches_known_api_route (req : Request) : Prop :=
  (req.method = Method.GET ∧ req.path = "/api/ping")
  ∨ (req.method = Method.GET ∧ req.path = "/api/info")
  ∨ (req.method = Method.GET ∧ req.path = "/api/users")
  ∨ (req.method = Method.GET ∧ strStartsWith req.path "/api/users/" = true)
  ∨ (req.method = Method.POST ∧ req.path = "/api/echo")
  ∨ (req.method = Method.GET ∧ req.path = "/api/search")
  ∨ (req.method = Method.GET ∧ req.path = "/api/time")

instance (req : Request) : Decidable (matches_known_api_route req) := by
  unfold matches_known_api_route
  infer_instance

/-- A sequence of `is_allowed` calls for one identity at the given instants,
returning the final ledger state and the per-call verdicts in order. -/
def runSeq (cfg : SecurityConfig) (ip : String) : RateState → List Nat → RateState × List Bool
  | st, [] => (st, [])
  | st, t :: ts =>
    let r := is_allowed cfg st ip t
    let rest := runSeq cfg ip r.2 ts
    (rest.1, r.1 :: rest.2)

/-- A filesystem on which every resolution fails: adequate for exercising
the purely API-routed scenarios. -/
def trivialFS : FileSystem :=
  { canonicalize := fun _ => none
    is_file := fun _ => false
    read_to_string := fun _ => none }

/-- Fixed ambient facts for concrete scenarios. -/
def demoEnv : ServerEnv :=
  { version := "0.1.0", unix_secs := 0, unix_millis := 0 }

/-- A handler over the default security configuration. -/
def demoHandler : WebsiteHandler :=
  { public_path := "/srv/public"
    config := SecurityConfig.default
    fs := trivialFS
    env := demoEnv }

/-- `GET /api/ping` with no headers and no query string. -/
def pingRequest : Request :=
  { method := Method.GET
    path := "/api/ping"
    host := none
    user_agent := none
    query_string := none }

/-- A fixed client identity. -/
def demoAddr : SocketAddr :=
  { ip := "127.0.0.1" }

/-- The handler state after `n` rapid `GET /api/ping` requests from
`demoAddr`, all at instant 0, starting from the initial state. -/
def pingIter : Nat → HandlerState
  | 0 => initHandlerState
  | n + 1 => (handle_request demoHandler (pingIter n) pingRequest demoAddr 0).2

/-- A filesystem on which canonicalization is the identity and every path is
a readable regular file with contents "hi". -/
def okFS : FileSystem :=
  { canonicalize := fun p => some p
    is_file := fun _ => true
    read_to_string := fun _ => some "hi" }

/-- A handler over `okFS`, for exercising successful resolutions. -/
def okHandler : WebsiteHandler :=
  { public_path := "/srv/public"
    config := SecurityConfig.default
    fs := okFS
    env := demoEnv }

/-- A handler state whose rate-limiter lock is poisoned. -/
def poisonedState : HandlerState :=
  { rate := { poisoned := true, ledger := [] }, request_count := 0 }

/-- The ledger after `is_allowed`'s opportunistic bulk sweep: untouched at
1000 identities or fewer, otherwise pruned per identity with emptied
identities removed. -/
def sweptLedger (cfg : SecurityConfig) (now : Nat) (st : RateState) :
    List (String × List Nat) :=
  if st.ledger.length > 1000 then
    (st.ledger.map (fun e => (e.1, pruneTimes cfg now e.2))).filter
      (fun e => !e.2.isEmpty)
  else st.ledger

/-- The caller's own timestamp list as `is_allowed` sees it right before the
accept/reject decision: looked up in the swept ledger (empty when absent)
and pruned to the window. -/
def prunedEntry (cfg : SecurityConfig) (now : Nat) (st : RateState) (ip : String) :
    List Nat :=
  pruneTimes cfg now ((ledgerFind? (sweptLedger cfg now st) ip).getD [])

/-! ## General lemmas about the string helpers -/

lemma isPrefixOf_trans : ∀ (p q s : List Char), p.isPrefixOf q = true → q.isPrefixOf s = true →
    p.isPrefixOf s = true := by
  intro p
  induction p with
  | nil =>
    intro q s _ _
    simp [List.isPrefixOf]
  | cons a ps ih =>
    intro q s h1 h2
    cases q with
    | nil => simp [List.isPrefixOf] at h1
    | cons b qs =>
      cases s with
      | nil => simp [List.isPrefixOf] at h2
      | cons c cs =>
        simp only [List.isPrefixOf, Bool.and_eq_true, beq_iff_eq] at h1 h2 ⊢
        exact ⟨h1.1.trans h2.1, ih qs cs h1.2 h2.2⟩

lemma splitOnChar_ne_nil (sep : Char) (s : List Char) : splitOnChar sep s ≠ [] := by
  cases s with
  | nil => simp [splitOnChar]
  | cons c cs =>
    simp only [splitOnChar]
    split
    · simp
    · split <;> simp

lemma splitOnChar_of_not_mem (sep : Char) : ∀ (s : List Char), sep ∉ s →
    splitOnChar sep s = [s] := by
  intro s
  induction s with
  | nil => intro _; rfl
  | cons c cs ih =>
    intro hmem
    have hc : ¬(c = sep) := fun he => hmem (he ▸ List.mem_cons_self c cs)
    have hcs : sep ∉ cs := fun hin => hmem (List.mem_cons_of_mem c hin)
    simp only [splitOnChar, if_neg hc, ih hcs]

lemma splitOnChar_two_of_mem (sep : Char) : ∀ (s : List Char), sep ∈ s →
    2 ≤ (splitOnChar sep s).length := by
  intro s
  induction s with
  | nil => intro h; cases h
  | cons c cs ih =>
    intro hmem
    simp only [splitOnChar]
    by_cases hc : c = sep
    · rw [if_pos hc]
      have h1 : 1 ≤ (splitOnChar sep cs).length := by
        cases hr : splitOnChar sep cs with
        | nil => exact absurd hr (splitOnChar_ne_nil sep cs)
        | cons g gs => simp
      simpa using h1
    · rw [if_neg hc]
      have hcs : sep ∈ cs := by
        rcases List.mem_cons.mp hmem with h | h
        · exact absurd h.symm hc
        · exact h
      have h2 := ih hcs
      cases hr : splitOnChar sep cs with
      | nil => exact absurd hr (splitOnChar_ne_nil sep cs)
      | cons g gs =>
        rw [hr] at h2
        simpa using h2

lemma takeWhile_eq_self_of_all {p : Char → Bool} : ∀ (l : List Char), (∀ x ∈ l, p x = true) →
    l.takeWhile p = l := by
  intro l
  induction l with
  | nil => intro _; rfl
  | cons x xs ih =>
    intro hall
    have hx : p x = true := hall x (List.mem_cons_self x xs)
    simp only [List.takeWhile, hx]
    rw [ih (fun y hy => hall y (List.mem_cons_of_mem x hy))]

lemma takeWhile_append_last {p : Char → Bool} (y : Char) (hy : p y = false) :
    ∀ (xs ys : List Char), (xs ++ y :: ys).takeWhile p = xs.takeWhile p := by
  intro xs ys
  induction xs with
  | nil => simp [List.takeWhile, hy]
  | cons x rest ih =>
    simp only [List.cons_append, List.takeWhile]
    cases hpx : p x with
    | false => rfl
    | true =>
      simp only [List.append_eq]
      rw [ih]

lemma takeWhile_append_of_stop {p : Char → Bool} : ∀ (xs ys : List Char),
    (∃ x ∈ xs, p x = false) → (xs ++ ys).takeWhile p = xs.takeWhile p := by
  intro xs ys
  induction xs with
  | nil =>
    rintro ⟨x, hx, -⟩
    cases hx
  | cons x rest ih =>
    rintro ⟨w, hw, hpw⟩
    simp only [List.cons_append, List.takeWhile]
    cases hpx : p x with
    | false => rfl
    | true =>
      have hwrest : w ∈ rest := by
        rcases List.mem_cons.mp hw with h | h
        · rw [h] at hpw; rw [hpw] at hpx; cases hpx
        · exact h
      simp only [List.append_eq]
      rw [ih ⟨w, hwrest, hpw⟩]

lemma splitOnChar_getLast (sep : Char) : ∀ (s : List Char),
    (splitOnChar sep s).getLast? = some (suffixAfterLast sep s) := by
  intro s
  induction s with
  | nil => simp [splitOnChar, suffixAfterLast]
  | cons c cs ih =>
    simp only [splitOnChar]
    by_cases hc : c = sep
    · rw [if_pos hc]
      obtain ⟨g, gs, hr⟩ := List.exists_cons_of_ne_nil (splitOnChar_ne_nil sep cs)
      rw [hr]
      have hlhs : ([] :: g :: gs).getLast? = (g :: gs).getLast? := List.getLast?_cons_cons
      rw [hlhs, ← hr, ih]
      subst hc
      simp only [suffixAfterLast, List.reverse_cons]
      rw [takeWhile_append_last c (by simp) cs.reverse []]
    · rw [if_neg hc]
      by_cases hmem : sep ∈ cs
      · obtain ⟨g, gs, hr⟩ := List.exists_cons_of_ne_nil (splitOnChar_ne_nil sep cs)
        have h2 := splitOnChar_two_of_mem sep cs hmem
        rw [hr] at h2
        cases gs with
        | nil => simp at h2
        | cons g2 gs2 =>
          rw [hr]
          have hlhs : ((c :: g) :: g2 :: gs2).getLast? = (g2 :: gs2).getLast? :=
            List.getLast?_cons_cons
          have hlhs2 : (g :: g2 :: gs2).getLast? = (g2 :: gs2).getLast? :=
            List.getLast?_cons_cons
          rw [hlhs, ← hlhs2, ← hr, ih]
          simp only [suffixAfterLast, List.reverse_cons]
          rw [takeWhile_append_of_stop cs.reverse [c]
            ⟨sep, List.mem_reverse.mpr hmem, by simp⟩]
      · rw [splitOnChar_of_not_mem sep cs hmem]
        have hnm : sep ∉ c :: cs := by
          intro hin
          rcases List.mem_cons.mp hin with h | h
          · exact hc h.symm
          · exact hmem h
        simp only [List.getLast?_singleton, suffixAfterLast]
        rw [takeWhile_eq_self_of_all ((c :: cs).reverse)
          (fun x hx => by
            have hxs : x ∈ c :: cs := List.mem_reverse.mp hx
            have : ¬(x = sep) := fun he => hnm (he ▸ hxs)
            simpa using this)]
        simp

lemma validate_file_extension_eq (cfg : SecurityConfig) (fp : String) :
    validate_file_extension cfg fp
      = cfg.allowed_file_extensions.contains (lowerStr (String.mk (suffixAfterLast '.' fp.data))) := by
  unfold validate_file_extension
  rw [splitOnChar_getLast]
  rfl

/-! ## Claim C4: extension validation -/

/-- C4 (counterexample): the claim says every path with no `.` is rejected,
but `split('.').last()` on a dot-free path yields the whole path, so the
bare path "html" — which contains no `.` — is accepted by
`validate_file_extension` under the default configuration, while the
claimed reading rejects it. -/
theorem claim_C4_counterexample :
    ("html".data.contains '.' = false)
    ∧ extension_accepts_claimed SecurityConfig.default "html" = false
    ∧ validate_file_extension SecurityConfig.default "html" = true := by
  decide

/-- C4 (amended): `validate_file_extension` accepts exactly when the
lowercased suffix after the last `.` — taken to be the whole path when the
path contains no `.` — is in the configured allow-set.  On paths that do
contain a `.` this coincides with the claimed reading, so allowed extensions
are accepted in every case variant (e.g. `.HTML`, `.Html`) and
non-allow-listed extensions are rejected; but a dot-free path is accepted
whenever the whole lowercased path happens to be an allow-listed extension
name, rather than always rejected. -/
theorem claim_C4 :
    (∀ (cfg : SecurityConfig) (fp : String),
      validate_file_extension cfg fp
        = cfg.allowed_file_extensions.contains (lowerStr (String.mk (suffixAfterLast '.' fp.data))))
    ∧ (∀ (cfg : SecurityConfig) (fp : String), fp.data.contains '.' = true →
        validate_file_extension cfg fp = extension_accepts_claimed cfg fp)
    ∧ validate_file_extension SecurityConfig.default "index.HTML" = true
    ∧ validate_file_extension SecurityConfig.default "page.Html" = true
    ∧ validate_file_extension SecurityConfig.default "script.exe" = false
    ∧ validate_file_extension SecurityConfig.default "app.php" = false
    ∧ validate_file_extension SecurityConfig.default "html" = true := by
  refine ⟨validate_file_extension_eq, ?_, by decide, by decide, by decide, by decide, by decide⟩
  intro cfg fp hdot
  rw [validate_file_extension_eq]
  unfold extension_accepts_claimed
  rw [if_pos hdot]

/-- C4 witness: the amended equivalence evaluated on a concrete dotted path. -/
theorem claim_C4_witness :
    validate_file_extension SecurityConfig.default "a.HTML"
      = extension_accepts_claimed SecurityConfig.default "a.HTML" :=
  claim_C4.2.1 SecurityConfig.default "a.HTML" (by decide)

/-! ## Claim C7: the limiter fails closed on a poisoned lock -/

/-- C7: when the ledger's lock is poisoned, `is_allowed` returns `false`
and leaves the state untouched — the limiter fails closed instead of
allowing the request or propagating an error. -/
theorem claim_C7 (cfg : SecurityConfig) (st : RateState) (ip : String) (now : Nat)
    (hp : st.poisoned = true) :
    is_allowed cfg st ip now = (false, st) := by
  simp [is_allowed, hp]

/-- C7 witness: a concrete poisoned state is rejected. -/
theorem claim_C7_witness :
    is_allowed SecurityConfig.default { poisoned := true, ledger := [] } "10.0.0.1" 5
      = (false, { poisoned := true, ledger := [] }) :=
  claim_C7 SecurityConfig.default { poisoned := true, ledger := [] } "10.0.0.1" 5 rfl

/-! ## Claim C9: host and user-agent never influence dispatch -/

/-- C9: two requests identical except in host header and user-agent receive
identical responses (and leave identical states): the dispatch pipeline
never consults `validate_host` or `sanitize_user_agent`. -/
theorem claim_C9 (h : WebsiteHandler) (st : HandlerState) (client_ip : SocketAddr) (now : Nat)
    (m : Method) (p : String) (q : Option (List (String × String)))
    (host1 host2 ua1 ua2 : Option String) :
    handle_request h st
        { method := m, path := p, host := host1, user_agent := ua1, query_string := q }
        client_ip now
      = handle_request h st
          { method := m, path := p, host := host2, user_agent := ua2, query_string := q }
          client_ip now := rfl

/-! ## Claim C1: the static file resolver fails closed -/

lemma validate_path_error_of_invalid_chars (cfg : SecurityConfig) (path : String)
    (h : (strContains path ".." || path.data.contains nullChar) = true) :
    ∃ e, validate_path cfg path = Except.error e := by
  unfold validate_path
  by_cases h1 : path.utf8ByteSize > cfg.max_path_length
  · rw [if_pos h1]
    exact ⟨"Path too long", rfl⟩
  · rw [if_neg h1, if_pos h]
    exact ⟨"Invalid path characters", rfl⟩

/-- C1: the Static File Resolver rejects, with `none`, every path containing
`..` or a NUL byte; and more generally `read_file` returns file content only
when every pipeline step — path validation, extension allow-list,
canonicalization, sandbox containment, regular-file check, and the read
itself — succeeds, so any failure collapses to the same "not found" answer. -/
theorem claim_C1 (h : WebsiteHandler) (path : String) :
    ((strContains path ".." = true ∨ path.data.contains nullChar = true) →
      read_file h path = none)
    ∧ (∀ content content_type, read_file h path = some (content, content_type) →
        validate_path h.config path = Except.ok ()
        ∧ validate_file_extension h.config path = true
        ∧ ∃ canonical_path,
            h.fs.canonicalize (pathJoin h.public_path (trimLeadingSlashes path))
              = some canonical_path
            ∧ pathStartsWith canonical_path h.public_path = true
            ∧ h.fs.is_file canonical_path = true
            ∧ h.fs.read_to_string canonical_path = some content
            ∧ content_type = get_content_type path) := by
  constructor
  · intro hbad
    have hb : (strContains path ".." || path.data.contains nullChar) = true := by
      rcases hbad with h1 | h1
      · rw [h1]
        rfl
      · rw [h1, Bool.or_true]
    obtain ⟨e, he⟩ := validate_path_error_of_invalid_chars h.config path hb
    unfold read_file
    rw [he]
  · intro content content_type hsome
    unfold read_file at hsome
    split at hsome
    · cases hsome
    · rename_i u hv
      cases u
      split at hsome
      · cases hsome
      · rename_i hext
        have hext2 : validate_file_extension h.config path = true := by
          simpa using hext
        dsimp only at hsome
        split at hsome
        · cases hsome
        · rename_i canonical_path hc
          split at hsome
          · cases hsome
          · rename_i hstart
            have hstart2 : pathStartsWith canonical_path h.public_path = true := by
              simpa using hstart
            split at hsome
            · rename_i hfile
              split at hsome
              · rename_i c hread
                have hpair := Option.some.inj hsome
                have hcontent : c = content := congrArg Prod.fst hpair
                have hct : get_content_type path = content_type := congrArg Prod.snd hpair
                refine ⟨hv, hext2, canonical_path, hc, hstart2, hfile, ?_, hct.symm⟩
                rw [← hcontent]
                exact hread
              · cases hsome
            · cases hsome

/-- C1 witness: a traversal path is refused, and on a successful concrete
resolution the first pipeline step indeed passed. -/
theorem claim_C1_witness :
    read_file demoHandler "../x.html" = none
    ∧ validate_path okHandler.config "hello.html" = Except.ok () :=
  ⟨(claim_C1 demoHandler "../x.html").1 (Or.inl (by decide)),
   ((claim_C1 okHandler "hello.html").2 "hi" "text/html; charset=utf-8" (by decide)).1⟩

/-! ## Claim C6: API routing is exactly the `/api/` prefix space -/

lemma startsWith_api_of_users (p : String) (h : strStartsWith p "/api/users/" = true) :
    strStartsWith p "/api/" = true := by
  simp only [strStartsWith, listIsPrefix] at h ⊢
  exact isPrefixOf_trans _ _ _ (by decide) h

lemma api_route_none_of_not_api (env : ServerEnv) (req : Request) (ip : SocketAddr)
    (cnt : Nat) (hpre : strStartsWith req.path "/api/" = false) :
    (handle_api_route env req ip cnt).1 = none := by
  have h1 : ¬(req.method = Method.GET ∧ req.path = "/api/ping") := by
    rintro ⟨-, hp⟩
    rw [hp] at hpre
    exact absurd hpre (by decide)
  have h2 : ¬(req.method = Method.GET ∧ req.path = "/api/info") := by
    rintro ⟨-, hp⟩
    rw [hp] at hpre
    exact absurd hpre (by decide)
  have h3 : ¬(req.method = Method.GET ∧ req.path = "/api/users") := by
    rintro ⟨-, hp⟩
    rw [hp] at hpre
    exact absurd hpre (by decide)
  have h4 : ¬(req.method = Method.GET ∧ strStartsWith req.path "/api/users/" = true) := by
    rintro ⟨-, hp⟩
    rw [startsWith_api_of_users req.path hp] at hpre
    cases hpre
  have h5 : ¬(req.method = Method.POST ∧ req.path = "/api/echo") := by
    rintro ⟨-, hp⟩
    rw [hp] at hpre
    exact absurd hpre (by decide)
  have h6 : ¬(req.method = Method.GET ∧ req.path = "/api/search") := by
    rintro ⟨-, hp⟩
    rw [hp] at hpre
    exact absurd hpre (by decide)
  have h7 : ¬(req.method = Method.GET ∧ req.path = "/api/time") := by
    rintro ⟨-, hp⟩
    rw [hp] at hpre
    exact absurd hpre (by decide)
  have h8 : ¬(strStartsWith req.path "/api/" = true) := by
    intro hh
    rw [hh] at hpre
    cases hpre
  simp only [handle_api_route]
  rw [if_neg h1, if_neg h2, if_neg h3, if_neg h4, if_neg h5, if_neg h6, if_neg h7, if_neg h8]

lemma api_route_some_of_api (env : ServerEnv) (req : Request) (ip : SocketAddr)
    (cnt : Nat) (hpre : strStartsWith req.path "/api/" = true) :
    ((handle_api_route env req ip cnt).1).isSome = true := by
  simp only [handle_api_route]
  repeat' split
  all_goals first
  | rfl
  | exact absurd hpre (by assumption)

lemma api_route_catch_all (env : ServerEnv) (req : Request) (ip : SocketAddr)
    (cnt : Nat) (hpre : strStartsWith req.path "/api/" = true)
    (hknown : ¬matches_known_api_route req) :
    (handle_api_route env req ip cnt).1 = some apiNotFoundResponse := by
  simp only [matches_known_api_route, not_or] at hknown
  obtain ⟨k1, k2, k3, k4, k5, k6, k7⟩ := hknown
  simp only [handle_api_route]
  rw [if_neg k1, if_neg k2, if_neg k3, if_neg k4, if_neg k5, if_neg k6, if_neg k7, if_pos hpre]

/-- C6: the API router returns `none` exactly when the request path is not
under the `/api/` prefix, and a path under the prefix matching no known
route yields the JSON "not found" envelope — so API-prefixed requests never
fall through to static file serving. -/
theorem claim_C6 (env : ServerEnv) (req : Request) (ip : SocketAddr) (cnt : Nat) :
    ((handle_api_route env req ip cnt).1 = none ↔ strStartsWith req.path "/api/" = false)
    ∧ (strStartsWith req.path "/api/" = true → ¬matches_known_api_route req →
        (handle_api_route env req ip cnt).1 = some apiNotFoundResponse) := by
  constructor
  · constructor
    · intro hnone
      cases hb : strStartsWith req.path "/api/" with
      | false => rfl
      | true =>
        have hsome := api_route_some_of_api env req ip cnt hb
        rw [hnone] at hsome
        cases hsome
    · exact api_route_none_of_not_api env req ip cnt
  · exact api_route_catch_all env req ip cnt

/-- C6 witness: a `DELETE` to an unknown API path receives the JSON 404
envelope, and a non-API path is declined by the router. -/
theorem claim_C6_witness :
    (handle_api_route demoEnv
        { method := Method.DELETE, path := "/api/nothing", host := none,
          user_agent := none, query_string := none } demoAddr 0).1
      = some apiNotFoundResponse :=
  (claim_C6 demoEnv
    { method := Method.DELETE, path := "/api/nothing", host := none,
      user_agent := none, query_string := none } demoAddr 0).2 (by decide) (by decide)

/-! ## Claim C5: the dispatcher is a strictly ordered short-circuit pipeline -/

lemma dispatch_rate_limited (h : WebsiteHandler) (st : HandlerState) (req : Request)
    (client_ip : SocketAddr) (now : Nat)
    (hrl : (is_allowed h.config st.rate client_ip.ip now).1 = false) :
    (handle_request h st req client_ip now).1 = Response.rate_limited := by
  simp only [handle_request, hrl]
  rfl

lemma dispatch_security_error (h : WebsiteHandler) (st : HandlerState) (req : Request)
    (client_ip : SocketAddr) (now : Nat) (reason : String)
    (hrl : (is_allowed h.config st.rate client_ip.ip now).1 = true)
    (hval : validate_path h.config req.path = Except.error reason) :
    (handle_request h st req client_ip now).1
      = Response.security_error "Request blocked for security reasons" := by
  simp only [handle_request, hrl, hval]
  rfl

lemma dispatch_api_hit (h : WebsiteHandler) (st : HandlerState) (req : Request)
    (client_ip : SocketAddr) (now : Nat) (r : Response)
    (hrl : (is_allowed h.config st.rate client_ip.ip now).1 = true)
    (hval : validate_path h.config req.path = Except.ok ())
    (hapi : (handle_api_route h.env req client_ip st.request_count).1 = some r) :
    (handle_request h st req client_ip now).1 = r := by
  simp only [handle_request, hrl, hval, hapi]
  rfl

lemma dispatch_method_fallback (h : WebsiteHandler) (st : HandlerState) (req : Request)
    (client_ip : SocketAddr) (now : Nat)
    (hrl : (is_allowed h.config st.rate client_ip.ip now).1 = true)
    (hval : validate_path h.config req.path = Except.ok ())
    (hapi : (handle_api_route h.env req client_ip st.request_count).1 = none)
    (hm1 : req.method ≠ Method.GET) (hm2 : req.method ≠ Method.HEAD)
    (hm3 : req.method ≠ Method.OPTIONS) :
    (handle_request h st req client_ip now).1
      = Response.new StatusCode.MethodNotAllowed (some "Method not allowed") := by
  simp only [handle_request, hrl, hval, hapi]
  cases hmm : req.method <;> simp_all

/-- C5: the dispatcher runs its checks in the strict order rate-limit,
path-validation, API routing, static-file routing, method fallback, and
short-circuits with the corresponding error response at the first failing
check: an over-limit identity receives the rate-limited response regardless
of path or method; a path failing validation receives the security-error
response even under the API prefix; a claimed API route is returned as is;
and a non-GET/HEAD/OPTIONS request the API router declined falls through to
method-not-allowed. -/
theorem claim_C5 (h : WebsiteHandler) (st : HandlerState) (req : Request)
    (client_ip : SocketAddr) (now : Nat) :
    ((is_allowed h.config st.rate client_ip.ip now).1 = false →
      (handle_request h st req client_ip now).1 = Response.rate_limited)
    ∧ (∀ reason, (is_allowed h.config st.rate client_ip.ip now).1 = true →
        validate_path h.config req.path = Except.error reason →
        (handle_request h st req client_ip now).1
          = Response.security_error "Request blocked for security reasons")
    ∧ (∀ r, (is_allowed h.config st.rate client_ip.ip now).1 = true →
        validate_path h.config req.path = Except.ok () →
        (handle_api_route h.env req client_ip st.request_count).1 = some r →
        (handle_request h st req client_ip now).1 = r)
    ∧ ((is_allowed h.config st.rate client_ip.ip now).1 = true →
        validate_path h.config req.path = Except.ok () →
        (handle_api_route h.env req client_ip st.request_count).1 = none →
        req.method ≠ Method.GET → req.method ≠ Method.HEAD → req.method ≠ Method.OPTIONS →
        (handle_request h st req client_ip now).1
          = Response.new StatusCode.MethodNotAllowed (some "Method not allowed")) := by
  refine ⟨?_, ?_, ?_, ?_⟩
  · exact dispatch_rate_limited h st req client_ip now
  · intro reason hrl hval
    exact dispatch_security_error h st req client_ip now reason hrl hval
  · intro r hrl hval hapi
    exact dispatch_api_hit h st req client_ip now r hrl hval hapi
  · intro hrl hval hapi hm1 hm2 hm3
    exact dispatch_method_fallback h st req client_ip now hrl hval hapi hm1 hm2 hm3

/-- C5 witness: a poisoned-lock (hence over-limit) client gets the
rate-limited response even for a request a healthy pipeline would serve,
and an API-prefixed request with an invalid path gets the security error. -/
theorem claim_C5_witness :
    (handle_request demoHandler poisonedState pingRequest demoAddr 0).1
        = Response.rate_limited
    ∧ (handle_request demoHandler initHandlerState
          { method := Method.GET, path := "/api/../secret", host := none,
            user_agent := none, query_string := none } demoAddr 0).1
        = Response.security_error "Request blocked for security reasons" :=
  ⟨(claim_C5 demoHandler poisonedState pingRequest demoAddr 0).1 (by decide),
   (claim_C5 demoHandler initHandlerState
      { method := Method.GET, path := "/api/../secret", host := none,
        user_agent := none, query_string := none } demoAddr 0).2.1
     "Invalid path characters" (by decide) (by rfl)⟩

lemma dispatch_head_mirrors_get (h : WebsiteHandler) (st : HandlerState) (req : Request)
    (client_ip : SocketAddr) (now : Nat)
    (hrl : (is_allowed h.config st.rate client_ip.ip now).1 = true)
    (hval : validate_path h.config req.path = Except.ok ())
    (hpre : strStartsWith req.path "/api/" = false)
    (hm : req.method = Method.HEAD) :
    (handle_request h st req client_ip now).1.status_code
      = (handle_request h st { req with method := Method.GET } client_ip now).1.status_code
    ∧ (handle_request h st req client_ip now).1.body = none := by
  have hapi1 : (handle_api_route h.env req client_ip st.request_count).1 = none :=
    api_route_none_of_not_api h.env req client_ip st.request_count hpre
  have hapi2 : (handle_api_route h.env { req with method := Method.GET }
      client_ip st.request_count).1 = none :=
    api_route_none_of_not_api h.env _ client_ip st.request_count hpre
  simp only [handle_request, hrl, hval, hapi1, hapi2, hm, Bool.not_true,
    Bool.false_eq_true, if_false]
  by_cases hp1 : req.path = "/"
  · rw [hp1]
    constructor
    · rcases hri : read_file h "index.html" with - | ⟨c1, t1⟩ <;>
        rcases hrh : read_file h "hello.html" with - | ⟨c2, t2⟩ <;>
          simp [hri, hrh, Response.html, Response.new, Response.with_content_type,
            create_safe_error_response]
    · rcases hri : read_file h "index.html" with - | ⟨c1, t1⟩ <;>
        rcases hrh : read_file h "hello.html" with - | ⟨c2, t2⟩ <;>
          simp [hri, hrh, Response.html, Response.new]
  · by_cases hp2 : req.path = "/hello"
    · rw [hp2]
      constructor
      · rcases hrh : read_file h "hello.html" with - | ⟨c2, t2⟩ <;>
          simp [hrh, Response.html, Response.new, Response.with_content_type,
            create_safe_error_response]
      · rcases hrh : read_file h "hello.html" with - | ⟨c2, t2⟩ <;>
          simp [hrh, Response.html, Response.new]
    · constructor
      · rcases hrp : read_file h req.path with - | ⟨c1, t1⟩ <;>
          simp only [hrp, Option.isSome_none, Option.isSome_some, Bool.false_eq_true,
            if_false, if_true] <;>
          first
          | rfl
          | (split <;>
              first
              | rfl
              | (rename_i heq
                 first
                 | exact absurd heq hp1
                 | exact absurd heq hp2))
      · split
        · rename_i heq
          exact absurd heq hp1
        · rename_i heq
          exact absurd heq hp2
        · split <;> rfl

lemma dispatch_options (h : WebsiteHandler) (st : HandlerState) (req : Request)
    (client_ip : SocketAddr) (now : Nat)
    (hrl : (is_allowed h.config st.rate client_ip.ip now).1 = true)
    (hval : validate_path h.config req.path = Except.ok ())
    (hapi : (handle_api_route h.env req client_ip st.request_count).1 = none)
    (hm : req.method = Method.OPTIONS) :
    (handle_request h st req client_ip now).1 = Response.new StatusCode.Ok none := by
  simp only [handle_request, hrl, hval, hapi, hm, Bool.not_true, Bool.false_eq_true, if_false]

/-! ## Claim C3: method handling -/

/-- C3 (counterexample): under the API prefix the claimed method semantics
fail — `HEAD /api/ping` falls into the API catch-all and receives 404 with
a JSON body (different status from `GET /api/ping`'s 200 and a non-empty
body), and `POST /api/ping` receives that same 404 instead of "method not
allowed". -/
theorem claim_C3_counterexample :
    (handle_request demoHandler initHandlerState
        { pingRequest with method := Method.HEAD } demoAddr 0).1.status_code
      = StatusCode.NotFound
    ∧ (handle_request demoHandler initHandlerState
        { pingRequest with method := Method.HEAD } demoAddr 0).1.body ≠ none
    ∧ (handle_request demoHandler initHandlerState pingRequest demoAddr 0).1.status_code
      = StatusCode.Ok
    ∧ (handle_request demoHandler initHandlerState
        { pingRequest with method := Method.POST } demoAddr 0).1.status_code
      ≠ StatusCode.MethodNotAllowed := by
  decide

/-- C3 (amended): outside the API prefix the claim holds — only GET serves
content, HEAD produces the same status as the corresponding GET with no
body, OPTIONS returns success with no body, and every other method receives
"method not allowed".  Under the API prefix, however, a request whose
method matches no route (any method other than GET, and other than POST —
the echo endpoint's method) receives the router's JSON 404 envelope instead
of the claimed method semantics. -/
theorem claim_C3 (h : WebsiteHandler) (st : HandlerState) (req : Request)
    (client_ip : SocketAddr) (now : Nat)
    (hrl : (is_allowed h.config st.rate client_ip.ip now).1 = true)
    (hval : validate_path h.config req.path = Except.ok ()) :
    (strStartsWith req.path "/api/" = false →
      ((req.method = Method.HEAD →
         (handle_request h st req client_ip now).1.status_code
           = (handle_request h st { req with method := Method.GET } client_ip now).1.status_code
         ∧ (handle_request h st req client_ip now).1.body = none)
       ∧ (req.method = Method.OPTIONS →
         (handle_request h st req client_ip now).1 = Response.new StatusCode.Ok none)
       ∧ (req.method ≠ Method.GET → req.method ≠ Method.HEAD → req.method ≠ Method.OPTIONS →
         (handle_request h st req client_ip now).1
           = Response.new StatusCode.MethodNotAllowed (some "Method not allowed"))))
    ∧ (strStartsWith req.path "/api/" = true →
        req.method ≠ Method.GET → req.method ≠ Method.POST →
        (handle_request h st req client_ip now).1 = apiNotFoundResponse) := by
  constructor
  · intro hpre
    have hapi : (handle_api_route h.env req client_ip st.request_count).1 = none :=
      api_route_none_of_not_api h.env req client_ip st.request_count hpre
    refine ⟨?_, ?_, ?_⟩
    · intro hm
      exact dispatch_head_mirrors_get h st req client_ip now hrl hval hpre hm
    · intro hm
      exact dispatch_options h st req client_ip now hrl hval hapi hm
    · intro hm1 hm2 hm3
      exact dispatch_method_fallback h st req client_ip now hrl hval hapi hm1 hm2 hm3
  · intro hpre hm1 hm2
    have hknown : ¬matches_known_api_route req := by
      rintro (⟨hmeth, -⟩ | ⟨hmeth, -⟩ | ⟨hmeth, -⟩ | ⟨hmeth, -⟩ | ⟨hmeth, -⟩ |
        ⟨hmeth, -⟩ | ⟨hmeth, -⟩)
      · exact hm1 hmeth
      · exact hm1 hmeth
      · exact hm1 hmeth
      · exact hm1 hmeth
      · exact hm2 hmeth
      · exact hm1 hmeth
      · exact hm1 hmeth
    exact dispatch_api_hit h st req client_ip now apiNotFoundResponse hrl hval
      (api_route_catch_all h.env req client_ip st.request_count hpre hknown)

/-- C3 witness: concrete HEAD-mirrors-GET and OPTIONS conclusions for a
non-API path. -/
theorem claim_C3_witness :
    ((handle_request demoHandler initHandlerState
        { method := Method.HEAD, path := "/x.html", host := none,
          user_agent := none, query_string := none } demoAddr 0).1.status_code
      = (handle_request demoHandler initHandlerState
          { method := Method.GET, path := "/x.html", host := none,
            user_agent := none, query_string := none } demoAddr 0).1.status_code
    ∧ (handle_request demoHandler initHandlerState
        { method := Method.HEAD, path := "/x.html", host := none,
          user_agent := none, query_string := none } demoAddr 0).1.body = none)
    ∧ (handle_request demoHandler initHandlerState
        { method := Method.TRACE, path := "/api/anything", host := none,
          user_agent := none, query_string := none } demoAddr 0).1 = apiNotFoundResponse :=
  ⟨((claim_C3 demoHandler initHandlerState
      { method := Method.HEAD, path := "/x.html", host := none,
        user_agent := none, query_string := none } demoAddr 0 (by decide) (by rfl)).1
      (by decide)).1 rfl,
   (claim_C3 demoHandler initHandlerState
      { method := Method.TRACE, path := "/api/anything", host := none,
        user_agent := none, query_string := none } demoAddr 0 (by decide) (by rfl)).2
      (by decide) (by decide) (by decide)⟩

/-! ## Claim C8: the parameterized user endpoint -/

lemma api_route_users_arm (env : ServerEnv) (req : Request) (ip : SocketAddr) (cnt : Nat)
    (hm : req.method = Method.GET) (hpre : strStartsWith req.path "/api/users/" = true) :
    (handle_api_route env req ip cnt).1
      = (match parseU32 (trimStartMatches req.path "/api/users/") with
         | some user_id =>
           if 1 ≤ user_id ∧ user_id ≤ 3 then some (userFoundResponse user_id)
           else some userNotFoundResponse
         | none => some invalidUserIdResponse) := by
  have h1 : ¬(req.method = Method.GET ∧ req.path = "/api/ping") := by
    rintro ⟨-, hp⟩
    rw [hp] at hpre
    exact absurd hpre (by decide)
  have h2 : ¬(req.method = Method.GET ∧ req.path = "/api/info") := by
    rintro ⟨-, hp⟩
    rw [hp] at hpre
    exact absurd hpre (by decide)
  have h3 : ¬(req.method = Method.GET ∧ req.path = "/api/users") := by
    rintro ⟨-, hp⟩
    rw [hp] at hpre
    exact absurd hpre (by decide)
  simp only [handle_api_route]
  rw [if_neg h1, if_neg h2, if_neg h3, if_pos ⟨hm, hpre⟩]

/-- C8: for `GET /api/users/<id>`, an id parsing inside the known range
1..3 yields 200 with the matching hardcoded user (id 2 is Bob with Bob's
email); an id parsing outside the range yields the 404 JSON envelope with
`"success": false`; an unparseable id yields a structured 400 JSON error
rather than a propagated parse failure. -/
theorem claim_C8 (env : ServerEnv) (req : Request) (ip : SocketAddr) (cnt : Nat)
    (hm : req.method = Method.GET) (hpre : strStartsWith req.path "/api/users/" = true) :
    (∀ n, parseU32 (trimStartMatches req.path "/api/users/") = some n →
       ((1 ≤ n ∧ n ≤ 3) →
         (handle_api_route env req ip cnt).1 = some (userFoundResponse n))
       ∧ (¬(1 ≤ n ∧ n ≤ 3) →
         (handle_api_route env req ip cnt).1 = some userNotFoundResponse))
    ∧ (parseU32 (trimStartMatches req.path "/api/users/") = none →
        (handle_api_route env req ip cnt).1 = some invalidUserIdResponse)
    ∧ StatusCode.code userNotFoundResponse.status_code = 404
    ∧ strContains (userNotFoundResponse.body.getD "") "\"success\": false" = true
    ∧ StatusCode.code invalidUserIdResponse.status_code = 400
    ∧ strContains (invalidUserIdResponse.body.getD "") "\"success\": false" = true
    ∧ (handle_api_route demoEnv
        { method := Method.GET, path := "/api/users/2", host := none,
          user_agent := none, query_string := none } demoAddr 0).1
      = some (userFoundResponse 2)
    ∧ userFoundResponse 2
      = Response.with_content_type StatusCode.Ok
          (some "\x7b\"success\": true, \"data\": \x7b\"id\": 2, \"name\": \"Bob\", \"email\": \"bob@example.com\"\x7d, \"message\": \"User found\"\x7d")
          "application/json; charset=utf-8"
    ∧ StatusCode.code (userFoundResponse 2).status_code = 200 := by
  refine ⟨?_, ?_, by decide, by decide, by decide, by decide, by decide, by decide, by decide⟩
  · intro n hp
    rw [api_route_users_arm env req ip cnt hm hpre, hp]
    constructor
    · intro hrange
      simp only [if_pos hrange]
    · intro hrange
      simp only [if_neg hrange]
  · intro hp
    rw [api_route_users_arm env req ip cnt hm hpre, hp]

/-- C8 witness: `GET /api/users/99` receives the user-not-found envelope. -/
theorem claim_C8_witness :
    (handle_api_route demoEnv
        { method := Method.GET, path := "/api/users/99", host := none,
          user_agent := none, query_string := none } demoAddr 0).1
      = some userNotFoundResponse :=
  (((claim_C8 demoEnv
      { method := Method.GET, path := "/api/users/99", host := none,
        user_agent := none, query_string := none } demoAddr 0 rfl (by decide)).1
    99 (by decide)).2 (by decide))

/-! ## Claim C2: the sliding-window limit boundary -/

lemma is_allowed_singleton (cfg : SecurityConfig) (ip : String) (t : Nat) (acc : List Nat)
    (hall : ∀ a ∈ acc, t - a < cfg.rate_limit_window) :
    is_allowed cfg { poisoned := false, ledger := [(ip, acc)] } ip t
      = if acc.length < cfg.rate_limit_requests
        then (true, { poisoned := false, ledger := [(ip, acc ++ [t])] })
        else (false, { poisoned := false, ledger := [(ip, acc)] }) := by
  have hprune : pruneTimes cfg t acc = acc :=
    List.filter_eq_self.mpr (fun a ha => by simpa using hall a ha)
  simp [is_allowed, ledgerFind?, ledgerInsert, hprune]

lemma is_allowed_init_eq (cfg : SecurityConfig) (ip : String) (t : Nat) :
    is_allowed cfg initRateState ip t
      = is_allowed cfg { poisoned := false, ledger := [(ip, [])] } ip t := by
  simp [is_allowed, initRateState, ledgerFind?, ledgerInsert, pruneTimes]

lemma runSeq_formula (cfg : SecurityConfig) (ip : String) :
    ∀ (ts acc : List Nat),
      (∀ a ∈ acc, ∀ t ∈ ts, t - a < cfg.rate_limit_window) →
      List.Pairwise (fun a b => b - a < cfg.rate_limit_window) ts →
      ∀ k, k < ts.length →
        (runSeq cfg ip { poisoned := false, ledger := [(ip, acc)] } ts).2.get? k
          = some (decide (acc.length + k < cfg.rate_limit_requests)) := by
  intro ts
  induction ts with
  | nil =>
    intro acc _ _ k hk
    cases hk
  | cons t ts' ih =>
    intro acc hacc hpw k hk
    have hallacc : ∀ a ∈ acc, t - a < cfg.rate_limit_window :=
      fun a ha => hacc a ha t (List.mem_cons_self t ts')
    rw [List.pairwise_cons] at hpw
    simp only [runSeq, is_allowed_singleton cfg ip t acc hallacc]
    by_cases hlt : acc.length < cfg.rate_limit_requests
    · rw [if_pos hlt]
      cases k with
      | zero =>
        simp only [List.get?]
        rw [decide_eq_true (by omega : acc.length + 0 < cfg.rate_limit_requests)]
      | succ k' =>
        have hacc' : ∀ a ∈ acc ++ [t], ∀ u ∈ ts', u - a < cfg.rate_limit_window := by
          intro a ha u hu
          rcases List.mem_append.mp ha with h | h
          · exact hacc a h u (List.mem_cons_of_mem t hu)
          · rw [List.mem_singleton.mp h]
            exact hpw.1 u hu
        have := ih (acc ++ [t]) hacc' hpw.2 k' (by simpa using hk)
        simp only [List.get?]
        rw [this]
        have hlen : (acc ++ [t]).length + k' = acc.length + (k' + 1) := by
          simp [List.length_append]
          omega
        rw [hlen]
    · rw [if_neg hlt]
      cases k with
      | zero =>
        simp only [List.get?]
        rw [decide_eq_false (by omega : ¬(acc.length + 0 < cfg.rate_limit_requests))]
      | succ k' =>
        have hacc' : ∀ a ∈ acc, ∀ u ∈ ts', u - a < cfg.rate_limit_window :=
          fun a ha u hu => hacc a ha u (List.mem_cons_of_mem t hu)
        have := ih acc hacc' hpw.2 k' (by simpa using hk)
        simp only [List.get?]
        rw [this]
        have e1 : decide (acc.length + k' < cfg.rate_limit_requests) = false :=
          decide_eq_false (by omega)
        have e2 : decide (acc.length + (k' + 1) < cfg.rate_limit_requests) = false :=
          decide_eq_false (by omega)
        rw [e1, e2]

lemma runSeq_init_results (cfg : SecurityConfig) (ip : String) (ts : List Nat) :
    (runSeq cfg ip initRateState ts).2
      = (runSeq cfg ip { poisoned := false, ledger := [(ip, [])] } ts).2 := by
  cases ts with
  | nil => rfl
  | cons t ts' => simp only [runSeq, is_allowed_init_eq]

/-- C2: for any configuration, a fresh identity issuing calls at instants
that all lie within one sliding window of each other is accepted on exactly
the first `rate_limit_requests` calls — the call at the limit boundary is
accepted, the next one rejected; and end-to-end under the default
100-per-60s configuration, the 101st rapid `GET /api/ping` from one
identity is answered with the fixed rate-limited body and status 429. -/
theorem claim_C2 :
    (∀ (cfg : SecurityConfig) (ip : String) (ts : List Nat),
       List.Pairwise (fun a b => b - a < cfg.rate_limit_window) ts →
       ∀ k, k < ts.length →
         (runSeq cfg ip initRateState ts).2.get? k
           = some (decide (k < cfg.rate_limit_requests)))
    ∧ (handle_request demoHandler (pingIter 100) pingRequest demoAddr 0).1
      = Response.rate_limited
    ∧ Response.rate_limited.status_code = StatusCode.TooManyRequests
    ∧ StatusCode.code StatusCode.TooManyRequests = 429
    ∧ Response.rate_limited.body = some "Rate limit exceeded. Please try again later." := by
  refine ⟨?_, by decide, rfl, rfl, rfl⟩
  intro cfg ip ts hpw k hk
  rw [runSeq_init_results]
  have h := runSeq_formula cfg ip ts [] (by intro a ha; cases ha) hpw k hk
  simpa using h

/-- C2 witness: with the default limit of 100, both calls of a 2-call burst
are accepted. -/
theorem claim_C2_witness :
    (runSeq SecurityConfig.default "1.2.3.4" initRateState [0, 1]).2.get? 1 = some true := by
  have h := claim_C2.1 SecurityConfig.default "1.2.3.4" [0, 1] (by decide) 1 (by decide)
  simpa using h

/-! ## Claim C10: the ledger never stores more than the limit per identity -/

lemma ledgerFind?_mem (m : List (String × List Nat)) (ip : String) (v : List Nat) :
    ledgerFind? m ip = some v → (ip, v) ∈ m := by
  induction m with
  | nil => intro h; cases h
  | cons e rest ih =>
    intro h
    simp only [ledgerFind?] at h
    by_cases he : e.1 = ip
    · rw [if_pos he] at h
      have hv : e.2 = v := Option.some.inj h
      have he2 : e = (ip, v) := by
        cases e
        simp only at he hv
        rw [he, hv]
      rw [← he2]
      exact List.mem_cons_self e rest
    · rw [if_neg he] at h
      exact List.mem_cons_of_mem e (ih h)

lemma mem_ledgerInsert (m : List (String × List Nat)) (ip : String) (v : List Nat)
    (e : String × List Nat) :
    e ∈ ledgerInsert m ip v → e = (ip, v) ∨ e ∈ m := by
  induction m with
  | nil =>
    intro h
    simp only [ledgerInsert] at h
    left
    exact List.mem_singleton.mp h
  | cons f rest ih =>
    intro h
    simp only [ledgerInsert] at h
    by_cases hf : f.1 = ip
    · rw [if_pos hf] at h
      rcases List.mem_cons.mp h with h1 | h1
      · left; exact h1
      · right; exact List.mem_cons_of_mem f h1
    · rw [if_neg hf] at h
      rcases List.mem_cons.mp h with h1 | h1
      · right; rw [h1]; exact List.mem_cons_self f rest
      · rcases ih h1 with h2 | h2
        · left; exact h2
        · right; exact List.mem_cons_of_mem f h2

lemma ledgerFind?_ledgerInsert_self (m : List (String × List Nat)) (ip : String)
    (v : List Nat) : ledgerFind? (ledgerInsert m ip v) ip = some v := by
  induction m with
  | nil => simp [ledgerInsert, ledgerFind?]
  | cons f rest ih =>
    simp only [ledgerInsert]
    by_cases hf : f.1 = ip
    · rw [if_pos hf]
      simp [ledgerFind?]
    · rw [if_neg hf]
      simp only [ledgerFind?, if_neg hf]
      exact ih

lemma mem_sweptLedger (cfg : SecurityConfig) (now : Nat) (st : RateState)
    (e : String × List Nat) (he : e ∈ sweptLedger cfg now st) :
    (∃ e0 ∈ st.ledger, e = (e0.1, pruneTimes cfg now e0.2)) ∨ e ∈ st.ledger := by
  unfold sweptLedger at he
  by_cases hsw : st.ledger.length > 1000
  · rw [if_pos hsw] at he
    left
    have h1 := (List.mem_filter.mp he).1
    obtain ⟨e0, he0, heq⟩ := List.mem_map.mp h1
    exact ⟨e0, he0, heq.symm⟩
  · rw [if_neg hsw] at he
    right
    exact he

lemma is_allowed_eq (cfg : SecurityConfig) (st : RateState) (ip : String) (now : Nat)
    (hp : st.poisoned = false) :
    is_allowed cfg st ip now
      = (if (prunedEntry cfg now st ip).length < cfg.rate_limit_requests then
           (true, { st with ledger := ledgerInsert (sweptLedger cfg now st) ip (prunedEntry cfg now st ip ++ [now]) })
         else
           (false, { st with ledger := ledgerInsert (sweptLedger cfg now st) ip (prunedEntry cfg now st ip) })) := by
  simp only [is_allowed, hp, sweptLedger, prunedEntry]
  rfl

/-- C10: invariant of the rate ledger — if every stored timestamp list has
length at most `rate_limit_requests`, that still holds after any completed
`is_allowed` call; mechanically, an accepting call stores exactly the pruned
list plus one fresh timestamp (and accepts only because the pruned length
was strictly below the limit), while a rejecting call stores the pruned list
unchanged. -/
theorem claim_C10 (cfg : SecurityConfig) (st : RateState) (ip : String) (now : Nat)
    (hinv : ∀ e ∈ st.ledger, e.2.length ≤ cfg.rate_limit_requests) :
    (∀ e ∈ ((is_allowed cfg st ip now).2).ledger, e.2.length ≤ cfg.rate_limit_requests)
    ∧ (st.poisoned = false →
        ((is_allowed cfg st ip now).1 = true →
           (prunedEntry cfg now st ip).length < cfg.rate_limit_requests
           ∧ ledgerFind? ((is_allowed cfg st ip now).2).ledger ip
             = some (prunedEntry cfg now st ip ++ [now]))
        ∧ ((is_allowed cfg st ip now).1 = false →
           cfg.rate_limit_requests ≤ (prunedEntry cfg now st ip).length
           ∧ ledgerFind? ((is_allowed cfg st ip now).2).ledger ip
             = some (prunedEntry cfg now st ip))) := by
  cases hp : st.poisoned with
  | true =>
    constructor
    · have hres : is_allowed cfg st ip now = (false, st) := by
        simp [is_allowed, hp]
      rw [hres]
      exact hinv
    · intro habs
      cases habs
  | false =>
    have hswinv : ∀ e ∈ sweptLedger cfg now st, e.2.length ≤ cfg.rate_limit_requests := by
      intro e he
      rcases mem_sweptLedger cfg now st e he with ⟨e0, he0, heq⟩ | hmem
      · rw [heq]
        exact le_trans (List.length_filter_le _ e0.2) (hinv e0 he0)
      · exact hinv e hmem
    have hprlen : (prunedEntry cfg now st ip).length ≤ cfg.rate_limit_requests := by
      unfold prunedEntry
      cases hfind : ledgerFind? (sweptLedger cfg now st) ip with
      | none => simp [pruneTimes]
      | some v =>
        simp only [Option.getD_some]
        exact le_trans (List.length_filter_le _ v) (hswinv (ip, v) (ledgerFind?_mem _ _ _ hfind))
    rw [is_allowed_eq cfg st ip now hp]
    by_cases hlt : (prunedEntry cfg now st ip).length < cfg.rate_limit_requests
    · rw [if_pos hlt]
      constructor
      · intro e he
        rcases mem_ledgerInsert _ _ _ _ he with heq | hmem
        · rw [heq]
          simp only [List.length_append, List.length_singleton]
          omega
        · exact hswinv e hmem
      · intro _
        constructor
        · intro _
          exact ⟨hlt, ledgerFind?_ledgerInsert_self _ _ _⟩
        · intro habs
          cases habs
    · rw [if_neg hlt]
      constructor
      · intro e he
        rcases mem_ledgerInsert _ _ _ _ he with heq | hmem
        · rw [heq]
          exact hprlen
        · exact hswinv e hmem
      · intro _
        constructor
        · intro habs
          cases habs
        · intro _
          exact ⟨Nat.le_of_not_lt hlt, ledgerFind?_ledgerInsert_self _ _ _⟩

/-- C10 witness: a concrete accepting call on a one-identity ledger stores
exactly the pruned list plus the fresh timestamp. -/
theorem claim_C10_witness :
    (prunedEntry SecurityConfig.default 1
        { poisoned := false, ledger := [("9.9.9.9", [0])] } "9.9.9.9").length
      < SecurityConfig.default.rate_limit_requests
    ∧ ledgerFind? ((is_allowed SecurityConfig.default
          { poisoned := false, ledger := [("9.9.9.9", [0])] } "9.9.9.9" 1).2).ledger "9.9.9.9"
      = some (prunedEntry SecurityConfig.default 1
          { poisoned := false, ledger := [("9.9.9.9", [0])] } "9.9.9.9" ++ [1]) :=
  ((claim_C10 SecurityConfig.default
      { poisoned := false, ledger := [("9.9.9.9", [0])] } "9.9.9.9" 1 (by decide)).2
    (by decide)).1 (by decide)
